import Mathlib

/-!
Shallow embedding of the Meowsenger backend chat core
(`src/backend/meowsenger_backend/models.py` and
`src/backend/meowsenger_backend/chat_views.py`) and proofs about the
frozen claims.

Modelling conventions:
* Django rows become Lean structures; many-to-many join tables
  (`user_chat`, `admin_chat`, `user_message`) become insertion-ordered
  lists of ids (each table has a `unique_together` constraint, and the
  unordered `chat.admins.all()` / `chat.users.all()` querysets are read
  in insertion order of the join rows, which is how the code's
  `admins.all().first()` seniority check is interpreted by the spec).
* The whole database is a `DB` record threaded through every operation;
  each Django ORM write is an explicit record update.
* `AutoField` primary keys become explicit `nextChatId` / `nextMessageId`
  counters; `datetime.now()` / `timezone.now()` become the `now` field.
* Views return their `status` flag (plus any payload a claim needs)
  together with the updated database.  An unhandled Python exception
  surfacing as an HTTP 500 is modelled as `none`.
* `models.py` evaluates `secrets.token_hex(16)` once, at class-definition
  time, as the `default=` of `Chat.secret`; that one process-wide value is
  the `secretDefault` field of `DB`.
-/

namespace Meowsenger

/-- Rows of the `User` model (`models.py`), restricted to the fields the
modelled chat operations read: the primary key and the unique username. -/
structure User where
  id : Nat
  username : String
deriving DecidableEq, Repr

/-- Rows of the `Message` model.  `user` and `chat` are the foreign keys.

Modelled from the spec: the fields `system_message_type` and
`system_message_params` are assigned and read by `chat_views.py` but are
missing from the snapshot of `models.py` (schema skew also visible in
`serializers.py`, which lists `language`/`theme` fields absent from the
`User` model); the spec's Message record carries "a structured
(type, params) payload" for system messages, so they are modelled as
optional fields here. -/
structure Message where
  id : Nat
  text : String
  is_deleted : Bool
  is_edited : Bool
  is_system : Bool
  send_time : Nat
  user : Nat
  chat : Nat
  reply_to : Option Nat
  is_forwarded : Bool
  system_message_type : Option String
  system_message_params : Option (List (String × String))
deriving DecidableEq, Repr

/-- Rows of the `Chat` model.  `users` and `admins` are the id lists of the
`user_chat` and `admin_chat` join tables, in row-insertion order. -/
structure Chat where
  id : Nat
  is_group : Bool
  name : String
  description : String
  users : List Nat
  admins : List Nat
  is_verified : Bool
  secret : String
  last_time : Nat
deriving DecidableEq, Repr

/-- The persistent store threaded through every request: the `User`,
`Chat` and `Message` tables, the `user_message` join table (`unread`, one
pair `(user id, message id)` per UnreadMark row), the auto-increment
counters, the clock, and the process-wide default of `Chat.secret`. -/
structure DB where
  users : List User
  chats : List Chat
  messages : List Message
  unread : List (Nat × Nat)
  nextChatId : Nat
  nextMessageId : Nat
  now : Nat
  secretDefault : String
deriving DecidableEq, Repr

/-- Lookup `Chat.objects.get(pk=...)` (first row with the given primary
key; `none` models `Chat.DoesNotExist`). -/
def chatByPk (db : DB) (pk : Nat) : Option Chat :=
  db.chats.find? (fun c => decide (c.id = pk))

/-- Lookup `User.objects.get(username=...)` / `.filter(username=...).first()`. -/
def userByUsername (db : DB) (uname : String) : Option User :=
  db.users.find? (fun u => decide (u.username = uname))

/-- Persist a modified chat row (`chat.save()` or an m2m write through the
chat): every stored row with the same primary key is replaced. -/
def updateChat (db : DB) (c : Chat) : DB :=
  { db with chats := db.chats.map (fun x => if x.id = c.id then c else x) }

/-- Django m2m `add`: insert a join row unless one already exists
(`unique_together` makes `add` idempotent); a new row is appended, i.e.
comes last in insertion order. -/
def m2mAdd (l : List Nat) (x : Nat) : List Nat :=
  if x ∈ l then l else l ++ [x]

/-- Django m2m `remove`: delete every join row for the given id. -/
def m2mRemove (l : List Nat) (x : Nat) : List Nat :=
  l.filter (fun y => decide (¬ y = x))

/-- Proposition that message `mid` is a row of chat `cid`, i.e. the filter
`message__chat=chat` / `Message.objects.filter(chat=chat)` matches it. -/
def msgInChat (db : DB) (mid cid : Nat) : Prop :=
  ∃ m ∈ db.messages, m.id = mid ∧ m.chat = cid

instance (db : DB) (mid cid : Nat) : Decidable (msgInChat db mid cid) :=
  List.decidableBEx _ db.messages

/-- Helper `mark_as_read(chat, user)` (`chat_views.py` lines 20-29):
for every message of the chat that is unread by the user, the
`unread_by` join row is removed; i.e. every `(user, message ∈ chat)`
UnreadMark is deleted. -/
def mark_as_read (db : DB) (cid uid : Nat) : DB :=
  { db with
    unread := db.unread.filter
      (fun p => decide (¬ (p.1 = uid ∧ msgInChat db p.2 cid))) }

/-- Helper `mark_as_not_read(chat, msg)` (`chat_views.py` lines 32-35):
`msg.unread_by.set(chat.users.all())` replaces the message's unread set
with exactly the chat's full member list (the author included). -/
def mark_as_not_read (db : DB) (chat : Chat) (mid : Nat) : DB :=
  { db with
    unread :=
      db.unread.filter (fun p => decide (¬ p.2 = mid))
        ++ chat.users.map (fun u => (u, mid)) }

/-- Unread check used by `chat_to_block_dict` / `chat_to_dict`
(`chat_views.py` lines 73 and 152):
`UserMessage.objects.filter(user=user, message__chat=chat).exists()`. -/
def has_unread (db : DB) (uid cid : Nat) : Bool :=
  decide (∃ p ∈ db.unread, p.1 = uid ∧ msgInChat db p.2 cid)

/-- Row insertion performed by `Message.objects.create(...)`: the next
primary key and `send_time = now` are assigned, unspecified columns take
their model defaults, and the row is appended to the table. -/
def createMessage (db : DB) (text : String) (uid cid : Nat)
    (isSys : Bool) (smType : Option String)
    (smParams : Option (List (String × String))) : Message × DB :=
  let m : Message :=
    { id := db.nextMessageId
      text := text
      is_deleted := false
      is_edited := false
      is_system := isSys
      send_time := db.now
      user := uid
      chat := cid
      reply_to := none
      is_forwarded := false
      system_message_type := smType
      system_message_params := smParams }
  (m, { db with
          messages := db.messages ++ [m]
          nextMessageId := db.nextMessageId + 1 })

end Meowsenger

namespace Meowsenger

/-- Sample user Alice, the actor in concrete scenarios. -/
def userA : User := { id := 1, username := "A" }

/-- Sample user Bob. -/
def userB : User := { id := 2, username := "B" }

/-- Sample user Carol. -/
def userC : User := { id := 3, username := "C" }

/-- Sample message with id 5, authored by user 1 in chat 1. -/
def msg5 : Message :=
  { id := 5, text := "hi", is_deleted := false, is_edited := false
    is_system := false, send_time := 10, user := 1, chat := 1
    reply_to := none, is_forwarded := false
    system_message_type := none, system_message_params := none }

/-- Sample group chat with id 1, members A and B, sole admin A. -/
def chatAB : Chat :=
  { id := 1, is_group := true, name := "g", description := "meowsenger group"
    users := [1, 2], admins := [1], is_verified := false
    secret := "s", last_time := 10 }

/-- Sample database: users A, B, C; the group `chatAB`; the single
message `msg5` authored by A; no unread marks. -/
def dbAB : DB :=
  { users := [userA, userB, userC], chats := [chatAB], messages := [msg5]
    unread := [], nextChatId := 2, nextMessageId := 6, now := 20
    secretDefault := "tok" }

/-- Values a JSON request field can hold in `request.data`, as far as the
limit-parsing expression `int(data.get("limit", 30))` is concerned: the
key can be absent, a JSON number, or a string. -/
inductive ReqVal where
  | absent
  | num (n : Int)
  | str (s : String)
deriving DecidableEq, Repr

/-- Digits-to-number accumulator used to model the Python builtin `int`. -/
def digitsToNat (l : List Char) : Nat :=
  l.foldl (fun acc c => acc * 10 + (c.toNat - 48)) 0

/-- Behaviour of the Python builtin `int` on a string: an optional sign
followed by a non-empty digit run parses, anything else raises
`ValueError` (`none`). -/
def pyIntOfString (s : String) : Option Int :=
  match s.toList with
  | [] => none
  | '-' :: rest =>
    if rest ≠ [] ∧ rest.all Char.isDigit then some (-(digitsToNat rest : Int))
    else none
  | '+' :: rest =>
    if rest ≠ [] ∧ rest.all Char.isDigit then some (digitsToNat rest : Int)
    else none
  | chars =>
    if chars.all Char.isDigit then some (digitsToNat chars : Int)
    else none

/-- Expression `limit = int(data.get("limit", 30))` shared by `get_chat`
(line 263), `get_group` (line 471) and `get_older_messages` (line 843):
an absent key defaults to 30, a number is taken as is, a string goes
through `int(...)`; `none` models the uncaught `ValueError` (HTTP 500).
No further bound is applied to the value. -/
def request_limit (v : ReqVal) : Option Int :=
  match v with
  | .absent => some 30
  | .num n => some n
  | .str s => pyIntOfString s

/-- Ordering used by the queryset `order_by("-id")`: descending primary
key. -/
def msgDescId (a b : Message) : Prop := b.id ≤ a.id

instance : DecidableRel msgDescId := fun a b => Nat.decLe b.id a.id

instance : IsTotal Message msgDescId := ⟨fun a b => Nat.le_total b.id a.id⟩

instance : IsTrans Message msgDescId := ⟨fun _ _ _ h1 h2 => Nat.le_trans h2 h1⟩

/-- Helper `messages_to_arr_from(chat_id, before_id, limit)`
(`chat_views.py` lines 170-208): select the chat's messages, restrict to
`id < before_id` when `before_id` is truthy (Python truthiness: both an
absent value and 0 skip the restriction), order by id descending, take
`limit`, then reverse for chronological display.  The view then converts
each record to a JSON object field by field (preserving `id`); the model
returns the records themselves. -/
def messages_to_arr_from (db : DB) (chat_id : Nat) (before_id : Option Nat)
    (limit : Nat) : List Message :=
  let q := db.messages.filter (fun m => decide (m.chat = chat_id))
  let q2 := match before_id with
    | some b => if 0 < b then q.filter (fun m => decide (m.id < b)) else q
    | none => q
  ((List.insertionSort msgDescId q2).take limit).reverse

/-- Response payload of the `create_group` view:
`Response({"status": True, "id": chat.id, "secret": chat.secret})`. -/
structure CreateGroupResp where
  status : Bool
  id : Nat
  secret : String
deriving DecidableEq, Repr

/-- Predicate for one username of the `members` list of `create_group`
actually causing an addition: it resolves to an existing user who is not
the creator (`User.objects.get` succeeding and `member != user`). -/
def memberValid (db : DB) (user : User) (s : String) : Bool :=
  match userByUsername db s with
  | none => false
  | some u => decide (¬ u.id = user.id)

/-- Body of the member loop of `create_group` (`chat_views.py` lines
376-396), one iteration: resolve the username (`User.DoesNotExist` is
skipped), skip the creator, otherwise add the user as member and append
the "user_added" system message. -/
def create_group_step (user : User) (acc : Chat × DB) (uname : String) :
    Chat × DB :=
  match userByUsername acc.2 uname with
  | none => acc
  | some member =>
    if member.id = user.id then acc
    else
      let chat := { acc.1 with users := m2mAdd acc.1.users member.id }
      let md := createMessage acc.2
        (user.username ++ " added " ++ member.username ++ " to the group")
        user.id chat.id true (some "user_added")
        (some [("actor", user.username), ("target", member.username)])
      (chat, md.2)

/-- Chat row created by `Chat.objects.create(name=..., is_group=True)` in
`create_group`, after `chat.users.add(user)` and `chat.admins.add(user)`:
the creator is the sole member and sole admin, and the `secret` column
takes the class-level default. -/
def create_group_chat0 (db : DB) (user : User) (name : String) : Chat :=
  { id := db.nextChatId, is_group := true, name := name
    description := "meowsenger group", users := [user.id]
    admins := [user.id], is_verified := false
    secret := db.secretDefault, last_time := db.now }

/-- Store state right after `Chat.objects.create` of `create_group`
claimed the next primary key. -/
def create_group_db0 (db : DB) : DB :=
  { db with nextChatId := db.nextChatId + 1 }

/-- Member loop of `create_group`, run over the whole `members` list. -/
def create_group_run (db : DB) (user : User) (name : String)
    (members : List String) : Chat × DB :=
  members.foldl (create_group_step user)
    (create_group_chat0 db user name, create_group_db0 db)

/-- View `create_group` (`chat_views.py` lines 360-398): create the group
row, add the creator as sole member and sole admin, then run the member
loop.  An absent or falsy `members` key is the empty list.  In Django the
row is inserted before the loop and mutated in place; the model stores
the final row, which produces the same final table (nothing in the loop
reads the chat table). -/
def create_group (db : DB) (user : User) (name : String)
    (members : List String) : CreateGroupResp × DB :=
  let cd := create_group_run db user name members
  ({ status := true, id := cd.1.id, secret := cd.1.secret },
   { cd.2 with chats := cd.2.chats ++ [cd.1] })

/-- Success tail shared verbatim by the `add_member`, `remove_member`,
`add_admin` and `remove_admin` views: persist the modified chat row,
create the system message, fan the unread marks out over the modified
row's member list, and bump `last_time` to the message's `send_time`
(`chat.last_time = msg.send_time; chat.save()`).  The fire-and-forget
WebSocket call of each view has no effect on the store. -/
def mutate_chat_tail (db : DB) (chat1 : Chat) (txt : String)
    (uid cid : Nat) (smType : Option String)
    (smParams : Option (List (String × String))) : DB :=
  let db1 := updateChat db chat1
  let md := createMessage db1 txt uid cid true smType smParams
  let db2 := mark_as_not_read md.2 chat1 md.1.id
  let chat2 := { chat1 with last_time := md.1.send_time }
  updateChat db2 chat2

/-- View `add_member` (`chat_views.py` lines 502-567): 404 when the chat
is missing, `status:false` when the username is unknown or the actor is
not an admin of a group chat; otherwise add the member, append the
"user_added" system message, fan out unread marks over the updated
member list, and bump `last_time` to the message's `send_time`.  (The
fire-and-forget WebSocket call has no effect on the store.) -/
def add_member (db : DB) (user : User) (fromId : Nat) (username : String) :
    Bool × DB :=
  match chatByPk db fromId with
  | none => (false, db)
  | some chat =>
    match userByUsername db username with
    | none => (false, db)
    | some target =>
      if chat.is_group = true ∧ user.id ∈ chat.admins then
        (true, mutate_chat_tail db
          { chat with users := m2mAdd chat.users target.id }
          (user.username ++ " added " ++ target.username ++ " to the group")
          user.id chat.id (some "user_added")
          (some [("actor", user.username), ("target", target.username)]))
      else (false, db)

/-- View `remove_member` (`chat_views.py` lines 570-635): gate is group ∧
actor admin ∧ target a member; on success remove the membership row,
append a "user_removed" system message, fan out unread marks over the
remaining members and bump `last_time`.  The admin rows of the target are
not touched, and an emptied chat is not torn down. -/
def remove_member (db : DB) (user : User) (fromId : Nat) (username : String) :
    Bool × DB :=
  match chatByPk db fromId with
  | none => (false, db)
  | some chat =>
    match userByUsername db username with
    | none => (false, db)
    | some target =>
      if chat.is_group = true ∧ user.id ∈ chat.admins ∧
          target.id ∈ chat.users then
        (true, mutate_chat_tail db
          { chat with users := m2mRemove chat.users target.id }
          (user.username ++ " removed " ++ target.username ++ " from the group")
          user.id chat.id (some "user_removed")
          (some [("actor", user.username), ("target", target.username)]))
      else (false, db)

/-- View `add_admin` (`chat_views.py` lines 638-704): gate is group ∧
actor == `chat.admins.all().first()` (the first-inserted admin row; an
empty admin set makes `first()` return `None`, which never equals a
user).  On success the target is added to the admin rows — with no check
that the target is a member — followed by the "admin_added" system
message, the unread fan-out and the `last_time` bump. -/
def add_admin (db : DB) (user : User) (fromId : Nat) (username : String) :
    Bool × DB :=
  match chatByPk db fromId with
  | none => (false, db)
  | some chat =>
    match userByUsername db username with
    | none => (false, db)
    | some target =>
      if chat.is_group = true ∧ chat.admins.head? = some user.id then
        (true, mutate_chat_tail db
          { chat with admins := m2mAdd chat.admins target.id }
          (user.username ++ " made " ++ target.username ++ " an admin")
          user.id chat.id (some "admin_added")
          (some [("actor", user.username), ("target", target.username)]))
      else (false, db)

/-- View `remove_admin` (`chat_views.py` lines 707-778): gate is group ∧
actor is the first admin ∧ target currently an admin ∧ target ≠ actor;
on success the target's admin row is removed, followed by the
"admin_removed" system message, the unread fan-out and the `last_time`
bump. -/
def remove_admin (db : DB) (user : User) (fromId : Nat) (username : String) :
    Bool × DB :=
  match chatByPk db fromId with
  | none => (false, db)
  | some chat =>
    match userByUsername db username with
    | none => (false, db)
    | some target =>
      if chat.is_group = true ∧ chat.admins.head? = some user.id ∧
          target.id ∈ chat.admins ∧ ¬ target.id = user.id then
        (true, mutate_chat_tail db
          { chat with admins := m2mRemove chat.admins target.id }
          (user.username ++ " removed admin rights from " ++ target.username)
          user.id chat.id (some "admin_removed")
          (some [("actor", user.username), ("target", target.username)]))
      else (false, db)

/-- View `leave_group` (`chat_views.py` lines 425-460): `status:false`
when the chat is missing or the actor is not a member; otherwise the
membership row is removed.  When the member list becomes empty the code
calls `remove_group(chat)`: at module level that name is bound to the
`remove_group` *view* defined at line 403, which shadows the teardown
helper of line 211, and invoking the view with a `Chat` object raises
before touching the store — modelled as result `none` (HTTP 500), the
membership removal already committed.  Otherwise a plain system message
is appended, unread marks are fanned out over the remaining members and
`last_time` is set to `timezone.now()`. -/
def leave_group (db : DB) (user : User) (fromId : Nat)
    (messageText : String) : Option Bool × DB :=
  match chatByPk db fromId with
  | none => (some false, db)
  | some chat =>
    if user.id ∈ chat.users then
      let chat1 := { chat with users := m2mRemove chat.users user.id }
      let db1 := updateChat db chat1
      if chat1.users.length = 0 then
        (none, db1)
      else
        let md := createMessage db1 messageText user.id chat.id true none none
        let db2 := mark_as_not_read md.2 chat1 md.1.id
        let chat2 := { chat1 with last_time := db1.now }
        (some true, updateChat db2 chat2)
    else (some false, db)

/-- Teardown helper `remove_group(chat)` of `chat_views.py` line 211:
clear both m2m relations, then delete the chat; messages cascade, and the
`user_message` rows of those messages cascade in turn.  At module load the
later view of the same name rebinds `remove_group`, so this function is
unreachable from `leave_group`; it is kept as the documented teardown
semantics. -/
def remove_group_teardown (db : DB) (cid : Nat) : DB :=
  { db with
    chats := db.chats.filter (fun c => decide (¬ c.id = cid))
    messages := db.messages.filter (fun m => decide (¬ m.chat = cid))
    unread := db.unread.filter (fun p => decide (¬ msgInChat db p.2 cid)) }

/-- View `save_settings` (`chat_views.py` lines 781-832): 404 when the
chat id is unknown; otherwise — with no membership or admin check at all —
the supplied `name` and `description` keys are applied, a plain system
message is created, unread marks are fanned out over the members, and
`last_time` is bumped; the response is always `status:true`. -/
def save_settings (db : DB) (user : User) (idArg : Nat)
    (nameArg descArg : Option String) (messageText : String) : Bool × DB :=
  match chatByPk db idArg with
  | none => (false, db)
  | some chat =>
    let chat1 := { chat with
      name := nameArg.getD chat.name
      description := descArg.getD chat.description }
    let md := createMessage db messageText user.id chat.id true none none
    let db2 := mark_as_not_read md.2 chat1 md.1.id
    let chat2 := { chat1 with last_time := md.1.send_time }
    (true, updateChat db2 chat2)

/-- Outcome of the `get_group` view relevant to the claims: the 404 branch
(`Chat.DoesNotExist`), the `status:false` branch (not a group or actor not
a member), and the success branch. -/
inductive GetGroupStatus where
  | notFound
  | denied
  | ok
deriving DecidableEq, Repr

/-- View `get_group` (`chat_views.py` lines 463-499), reduced to the
branch taken and the store mutation: on success the actor's unread marks
for the chat are cleared (`mark_as_read`); the serialized payload (chat
dict, message page, counters) is read-only and omitted here — the page
itself is `messages_to_arr_from`. -/
def get_group (db : DB) (user : User) (fromId : Nat) : GetGroupStatus × DB :=
  match chatByPk db fromId with
  | none => (.notFound, db)
  | some chat =>
    if chat.is_group = true ∧ user.id ∈ chat.users then
      (.ok, mark_as_read db chat.id user.id)
    else (.denied, db)

/-- Membership invariant of claim C1 on one chat row: every admin id is a
member id. -/
def admins_subset (c : Chat) : Bool :=
  c.admins.all (fun a => decide (a ∈ c.users))

/-- Sample group chat with id 1, members A and B, both admins (A first). -/
def chatAB2 : Chat :=
  { id := 1, is_group := true, name := "g", description := "meowsenger group"
    users := [1, 2], admins := [1, 2], is_verified := false
    secret := "s", last_time := 10 }

/-- Sample database around `chatAB2`. -/
def dbAB2 : DB :=
  { users := [userA, userB, userC], chats := [chatAB2], messages := []
    unread := [], nextChatId := 2, nextMessageId := 1, now := 20
    secretDefault := "tok" }

/-- Sample group chat with id 1 whose only member is its only admin A. -/
def chatSolo : Chat :=
  { id := 1, is_group := true, name := "g", description := "meowsenger group"
    users := [1], admins := [1], is_verified := false
    secret := "s", last_time := 10 }

/-- Sample database around `chatSolo`. -/
def dbSolo : DB :=
  { users := [userA], chats := [chatSolo], messages := []
    unread := [], nextChatId := 2, nextMessageId := 1, now := 20
    secretDefault := "tok" }

/-- Sample database with users A, B, C and no chat yet, used for the
`create_group` scenario. -/
def dbABC : DB :=
  { users := [userA, userB, userC], chats := [], messages := []
    unread := [], nextChatId := 1, nextMessageId := 1, now := 0
    secretDefault := "tok" }

/-- Plain sample message with a chosen id and chat. -/
def mkMsg (i cid : Nat) : Message :=
  { id := i, text := "m", is_deleted := false, is_edited := false
    is_system := false, send_time := i, user := 1, chat := cid
    reply_to := none, is_forwarded := false
    system_message_type := none, system_message_params := none }

/-- Sample database for pagination: chat 1 holds messages 1-4, chat 2
holds message 6. -/
def dbPage : DB :=
  { users := [userA], chats := [chatAB]
    messages := [mkMsg 1 1, mkMsg 2 1, mkMsg 3 1, mkMsg 4 1, mkMsg 6 2]
    unread := [], nextChatId := 3, nextMessageId := 7, now := 30
    secretDefault := "tok" }

/-- C7: after `mark_as_read(conv, u)` the user has no unread mark left on
any message of the conversation — `has_unread` is `false`, the table
holds no surviving `(u, message ∈ conv)` row — and running
`mark_as_read` a second time leaves the database unchanged. -/
theorem mark_as_read_clears_and_idempotent (db : DB) (cid uid : Nat) :
    has_unread (mark_as_read db cid uid) uid cid = false ∧
    ((mark_as_read db cid uid).unread.filter
        (fun p => decide (p.1 = uid ∧ msgInChat db p.2 cid))) = [] ∧
    mark_as_read (mark_as_read db cid uid) cid uid = mark_as_read db cid uid := by
  have hmem : ∀ p ∈ (mark_as_read db cid uid).unread,
      ¬ (p.1 = uid ∧ msgInChat db p.2 cid) := by
    intro p hp
    have h := List.of_mem_filter hp
    rw [decide_eq_true_eq] at h
    exact h
  refine ⟨?_, ?_, ?_⟩
  · apply decide_eq_false
    rintro ⟨p, hp, h1, h2⟩
    have hmsgs : msgInChat (mark_as_read db cid uid) p.2 cid =
        msgInChat db p.2 cid := rfl
    exact hmem p hp ⟨h1, by simpa [hmsgs] using h2⟩
  · apply List.filter_eq_nil_iff.mpr
    intro p hp
    simp only [decide_eq_true_eq]
    exact hmem p hp
  · show ({ mark_as_read db cid uid with
      unread := (mark_as_read db cid uid).unread.filter
        (fun p => decide (¬ (p.1 = uid ∧
          msgInChat (mark_as_read db cid uid) p.2 cid))) } : DB) = _
    have hflt : (mark_as_read db cid uid).unread.filter
        (fun p => decide (¬ (p.1 = uid ∧
          msgInChat (mark_as_read db cid uid) p.2 cid))) =
        (mark_as_read db cid uid).unread := by
      apply List.filter_eq_self.mpr
      intro p hp
      exact decide_eq_true (hmem p hp)
    rw [hflt]

/-- C2 (amended): `mark_as_not_read(chat, msg)` sets the unread marks of
`msg` to exactly the chat's full member list — every member, the author
included, so n marks for n members — and leaves the marks of every other
message unchanged. -/
theorem mark_as_not_read_marks_all_members (db : DB) (chat : Chat) (mid : Nat) :
    ((mark_as_not_read db chat mid).unread.filter
        (fun p => decide (p.2 = mid))).map Prod.fst = chat.users ∧
    ((mark_as_not_read db chat mid).unread.filter
        (fun p => decide (p.2 = mid))).length = chat.users.length ∧
    (mark_as_not_read db chat mid).unread.filter
        (fun p => decide (¬ p.2 = mid)) =
      db.unread.filter (fun p => decide (¬ p.2 = mid)) := by
  have h1 : (db.unread.filter (fun p => decide (¬ p.2 = mid))).filter
      (fun p => decide (p.2 = mid)) = [] := by
    apply List.filter_eq_nil_iff.mpr
    intro p hp
    have h := List.of_mem_filter hp
    simp only [decide_eq_true_eq] at h
    simpa using h
  have h2 : (chat.users.map (fun u => (u, mid))).filter
      (fun p => decide (p.2 = mid)) = chat.users.map (fun u => (u, mid)) := by
    apply List.filter_eq_self.mpr
    intro p hp
    obtain ⟨u, _, rfl⟩ := List.mem_map.mp hp
    simp
  have h3 : (chat.users.map (fun u => (u, mid))).filter
      (fun p => decide (¬ p.2 = mid)) = [] := by
    apply List.filter_eq_nil_iff.mpr
    intro p hp
    obtain ⟨u, _, rfl⟩ := List.mem_map.mp hp
    simp
  have h4 : (db.unread.filter (fun p => decide (¬ p.2 = mid))).filter
      (fun p => decide (¬ p.2 = mid)) =
      db.unread.filter (fun p => decide (¬ p.2 = mid)) := by
    apply List.filter_eq_self.mpr
    intro p hp
    exact (List.mem_filter.mp hp).2
  have hmain : ((mark_as_not_read db chat mid).unread.filter
      (fun p => decide (p.2 = mid))).map Prod.fst = chat.users := by
    show ((db.unread.filter (fun p => decide (¬ p.2 = mid))
        ++ chat.users.map (fun u => (u, mid))).filter
        (fun p => decide (p.2 = mid))).map Prod.fst = chat.users
    rw [List.filter_append, h1, h2]
    have hcomp : (Prod.fst ∘ fun u : Nat => (u, mid)) = id := rfl
    rw [List.nil_append, List.map_map, hcomp, List.map_id]
  refine ⟨hmain, ?_, ?_⟩
  · have := congrArg List.length hmain
    simpa [List.length_map] using this
  · show (db.unread.filter (fun p => decide (¬ p.2 = mid))
        ++ chat.users.map (fun u => (u, mid))).filter
        (fun p => decide (¬ p.2 = mid)) = _
    rw [List.filter_append, h3, h4, List.append_nil]

/-- C2 counterexample: in `dbAB` the message `msg5` is authored by user 1,
a member of `chatAB` (members 1 and 2); after the unread fan-out for
`msg5` the author holds an unread mark on their own message, and the
number of marks created is 2 = n, not n − 1 = 1 as the claim states. -/
theorem mark_as_not_read_author_marked :
    msg5.user = 1 ∧ (1 : Nat) ∈ chatAB.users ∧
    (1, 5) ∈ (mark_as_not_read dbAB chatAB 5).unread ∧
    ((mark_as_not_read dbAB chatAB 5).unread.filter
        (fun p => decide (p.2 = 5))).length = 2 := by decide

/-- C8 counterexample: the non-numeric limit string "abc" makes
`int(data.get("limit", 30))` raise instead of falling back to the
default 30, and the numeric limit -5 is accepted unchanged, so the
effective limit is not always positive. -/
theorem request_limit_not_coerced :
    request_limit (ReqVal.str "abc") = none ∧
    request_limit (ReqVal.num (-5)) = some (-5) := by decide

/-- C8 (amended): an absent `limit` is coerced to the default 30, while a
numeric `limit` is used exactly as supplied with no positivity bound, and
a non-numeric string is handed to `int(...)`, whose failure is an
uncaught error rather than a coercion to the default. -/
theorem request_limit_spec (n : Int) (s : String) :
    request_limit ReqVal.absent = some 30 ∧
    request_limit (ReqVal.num n) = some n ∧
    request_limit (ReqVal.str s) = pyIntOfString s := by
  exact ⟨rfl, rfl, rfl⟩

/-- Sorting by descending id is strictly descending on ids whenever the
input ids are distinct (they are: `id` is the primary key). -/
lemma insertionSort_pairwise_desc (l : List Message)
    (hnd : (l.map Message.id).Nodup) :
    List.Pairwise (fun a b : Message => b.id < a.id)
      (List.insertionSort msgDescId l) := by
  have hsorted : List.Pairwise msgDescId (List.insertionSort msgDescId l) :=
    List.sorted_insertionSort msgDescId l
  have hperm : List.Perm ((List.insertionSort msgDescId l).map Message.id)
      (l.map Message.id) := (List.perm_insertionSort msgDescId l).map Message.id
  have hnd2 : ((List.insertionSort msgDescId l).map Message.id).Nodup :=
    hperm.nodup_iff.mpr hnd
  have hne : List.Pairwise (fun a b : Message => a.id ≠ b.id)
      (List.insertionSort msgDescId l) := List.pairwise_map.mp hnd2
  exact (hsorted.and hne).imp
    (fun h => lt_of_le_of_ne h.1 (Ne.symm h.2))

/-- Shape of one page for a positive cursor: the double filter, sorted
descending, truncated, reversed. -/
lemma page_eq (db : DB) (cid b L : Nat) (hb : 0 < b) :
    messages_to_arr_from db cid (some b) L =
      ((List.insertionSort msgDescId
        ((db.messages.filter (fun m => decide (m.chat = cid))).filter
          (fun m => decide (m.id < b)))).take L).reverse := by
  simp [messages_to_arr_from, hb]

/-- Ids stay distinct through the page query. -/
lemma page_query_nodup (db : DB) (cid b : Nat)
    (hnd : (db.messages.map Message.id).Nodup) :
    (((db.messages.filter (fun m => decide (m.chat = cid))).filter
      (fun m => decide (m.id < b))).map Message.id).Nodup := by
  have hsub : List.Sublist
      ((db.messages.filter (fun m => decide (m.chat = cid))).filter
        (fun m => decide (m.id < b))) db.messages :=
    (List.filter_sublist _).trans (List.filter_sublist _)
  exact (hsub.map Message.id).nodup hnd

/-- Every message on a page (positive cursor) is a message of the chat
with id below the cursor. -/
lemma page_mem (db : DB) (cid b L : Nat) (hb : 0 < b) {m : Message}
    (hm : m ∈ messages_to_arr_from db cid (some b) L) :
    m ∈ db.messages ∧ m.chat = cid ∧ m.id < b := by
  rw [page_eq db cid b L hb, List.mem_reverse] at hm
  have hm2 : m ∈ List.insertionSort msgDescId
      ((db.messages.filter (fun m => decide (m.chat = cid))).filter
        (fun m => decide (m.id < b))) := List.mem_of_mem_take hm
  have hm3 : m ∈ (db.messages.filter (fun m => decide (m.chat = cid))).filter
      (fun m => decide (m.id < b)) :=
    ((List.perm_insertionSort msgDescId _).mem_iff).mp hm2
  have h5 := List.mem_filter.mp hm3
  have h6 := List.mem_filter.mp h5.1
  refine ⟨h6.1, ?_, ?_⟩
  · simpa using h6.2
  · simpa using h5.2

/-- Ids on a page (positive cursor) are strictly ascending. -/
lemma page_ids_sorted (db : DB) (cid b L : Nat) (hb : 0 < b)
    (hnd : (db.messages.map Message.id).Nodup) :
    List.Pairwise (· < ·)
      ((messages_to_arr_from db cid (some b) L).map Message.id) := by
  rw [page_eq db cid b L hb]
  have hdesc := insertionSort_pairwise_desc _ (page_query_nodup db cid b hnd)
  have htake : List.Pairwise (fun a b : Message => b.id < a.id)
      ((List.insertionSort msgDescId
        ((db.messages.filter (fun m => decide (m.chat = cid))).filter
          (fun m => decide (m.id < b)))).take L) :=
    List.Pairwise.sublist (List.take_sublist _ _) hdesc
  have hrev : List.Pairwise (fun a b : Message => a.id < b.id)
      (((List.insertionSort msgDescId
        ((db.messages.filter (fun m => decide (m.chat = cid))).filter
          (fun m => decide (m.id < b)))).take L).reverse) :=
    List.pairwise_reverse.mpr htake
  exact List.pairwise_map.mpr hrev

/-- C5: for a conversation, positive cursor X and limit L, the page is
strictly ascending by id, every id is below X, and at most L messages are
returned; paging again with the minimum id of the page as the cursor
yields only messages not seen before and skips none: every chat message
below the new cursor is either on the second page or has an id below the
whole second page.  Hypotheses: ids are the distinct positive primary
keys of the message table. -/
theorem messages_pagination_correct (db : DB) (cid X L : Nat)
    (hL : 0 < L) (hX : 0 < X)
    (hnd : (db.messages.map Message.id).Nodup)
    (hpos : ∀ m ∈ db.messages, 0 < m.id) :
    List.Pairwise (· < ·)
      ((messages_to_arr_from db cid (some X) L).map Message.id) ∧
    (∀ m ∈ messages_to_arr_from db cid (some X) L, m.id < X) ∧
    (messages_to_arr_from db cid (some X) L).length ≤ L ∧
    (∀ Y, Y ∈ (messages_to_arr_from db cid (some X) L).map Message.id →
      (∀ i ∈ (messages_to_arr_from db cid (some X) L).map Message.id, Y ≤ i) →
      (∀ m ∈ messages_to_arr_from db cid (some Y) L,
          m.id ∉ (messages_to_arr_from db cid (some X) L).map Message.id) ∧
      (∀ m ∈ db.messages, m.chat = cid → m.id < Y →
          m.id ∈ (messages_to_arr_from db cid (some Y) L).map Message.id ∨
          ∀ j ∈ (messages_to_arr_from db cid (some Y) L).map Message.id,
            m.id < j)) := by
  refine ⟨page_ids_sorted db cid X L hX hnd, ?_, ?_, ?_⟩
  · intro m hm
    exact (page_mem db cid X L hX hm).2.2
  · rw [page_eq db cid X L hX]
    simp [List.length_take]
  · intro Y hY hYmin
    obtain ⟨mY, hmY, hmYid⟩ := List.mem_map.mp hY
    have hYpos : 0 < Y := by
      have := hpos mY (page_mem db cid X L hX hmY).1
      omega
    constructor
    · intro m hm hmem
      have hmlt : m.id < Y := (page_mem db cid Y L hYpos hm).2.2
      have := hYmin m.id hmem
      omega
    · intro m hmdb hmc hmlt
      have hmq : m ∈ (db.messages.filter (fun m => decide (m.chat = cid))).filter
          (fun m => decide (m.id < Y)) := by
        refine List.mem_filter.mpr ⟨List.mem_filter.mpr ⟨hmdb, ?_⟩, ?_⟩
        · simpa using hmc
        · simpa using hmlt
      have hms : m ∈ List.insertionSort msgDescId
          ((db.messages.filter (fun m => decide (m.chat = cid))).filter
            (fun m => decide (m.id < Y))) :=
        ((List.perm_insertionSort msgDescId _).mem_iff).mpr hmq
      rw [← List.take_append_drop L (List.insertionSort msgDescId
          ((db.messages.filter (fun m => decide (m.chat = cid))).filter
            (fun m => decide (m.id < Y))))] at hms
      rcases List.mem_append.mp hms with htake | hdrop
      · left
        rw [page_eq db cid Y L hYpos]
        exact List.mem_map.mpr ⟨m, List.mem_reverse.mpr htake, rfl⟩
      · right
        intro j hj
        rw [page_eq db cid Y L hYpos] at hj
        obtain ⟨a, ha, haid⟩ := List.mem_map.mp hj
        have ha2 : a ∈ (List.insertionSort msgDescId
            ((db.messages.filter (fun m => decide (m.chat = cid))).filter
              (fun m => decide (m.id < Y)))).take L := List.mem_reverse.mp ha
        have hdesc := insertionSort_pairwise_desc _ (page_query_nodup db cid Y hnd)
        rw [← List.take_append_drop L (List.insertionSort msgDescId
            ((db.messages.filter (fun m => decide (m.chat = cid))).filter
              (fun m => decide (m.id < Y))))] at hdesc
        have hrel := (List.pairwise_append.mp hdesc).2.2 a ha2 m hdrop
        omega

/-- Membership is preserved when an m2m add appends another id. -/
lemma mem_m2mAdd_of_mem {l : List Nat} {x : Nat} (y : Nat) (h : x ∈ l) :
    x ∈ m2mAdd l y := by
  unfold m2mAdd
  split
  · exact h
  · exact List.mem_append_left _ h

/-- Membership after an m2m add: the old ids plus the added one. -/
lemma mem_m2mAdd_iff {l : List Nat} {x y : Nat} :
    x ∈ m2mAdd l y ↔ x ∈ l ∨ x = y := by
  unfold m2mAdd
  split
  · rename_i h
    constructor
    · exact Or.inl
    · rintro (hx | rfl)
      · exact hx
      · exact h
  · simp [List.mem_append]

/-- Propositional reading of the per-chat invariant. -/
lemma admins_subset_iff {c : Chat} :
    admins_subset c = true ↔ ∀ a ∈ c.admins, a ∈ c.users := by
  simp [admins_subset]

/-- Saving one invariant-respecting chat row preserves the table-wide
invariant. -/
lemma all_admins_subset_updateChat {db : DB} {c : Chat}
    (h : db.chats.all admins_subset = true) (hc : admins_subset c = true) :
    (updateChat db c).chats.all admins_subset = true := by
  rw [List.all_eq_true] at h ⊢
  intro x hx
  obtain ⟨y, hy, rfl⟩ := List.mem_map.mp hx
  by_cases hid : y.id = c.id
  · simpa [hid] using hc
  · simpa [hid] using h y hy

/-- Replacing the rows matching a primary key and then looking that key up
returns the replacement exactly when the key was present before. -/
lemma find?_map_replace (l : List Chat) (c : Chat) (pk : Nat)
    (hid : c.id = pk) :
    (l.map (fun x => if x.id = c.id then c else x)).find?
        (fun x => decide (x.id = pk)) =
      (l.find? (fun x => decide (x.id = pk))).map (fun _ => c) := by
  induction l with
  | nil => simp
  | cons a l ih =>
    by_cases ha : a.id = c.id
    · have hc : decide (c.id = pk) = true := by simp [hid]
      have ha2 : decide (a.id = pk) = true := by simp [ha, hid]
      simp only [List.map_cons, if_pos ha]
      rw [List.find?_cons, List.find?_cons]
      simp [hc, ha2]
    · have ha2 : decide (a.id = pk) = false := by
        simp only [decide_eq_false_iff_not]
        intro h
        exact ha (h.trans hid.symm)
      simp only [List.map_cons, if_neg ha]
      rw [List.find?_cons, List.find?_cons]
      simp [ha2, ih]

/-- Behaviour of the member loop of `create_group` from an arbitrary
accumulator: the chat row's secret and admin rows never change and its
member rows only grow; the user table, chat table, unread table and the
secret default are untouched; and the message table grows by exactly one
"user_added" system message per occurrence of a username resolving to a
user other than the creator. -/
lemma create_group_run_spec (user : User) (ms : List String) :
    ∀ (chat : Chat) (db : DB),
      ((ms.foldl (create_group_step user) (chat, db)).1.secret = chat.secret ∧
       (ms.foldl (create_group_step user) (chat, db)).1.admins = chat.admins ∧
       (∀ x ∈ chat.users,
         x ∈ (ms.foldl (create_group_step user) (chat, db)).1.users)) ∧
      ((ms.foldl (create_group_step user) (chat, db)).2.users = db.users ∧
       (ms.foldl (create_group_step user) (chat, db)).2.chats = db.chats ∧
       (ms.foldl (create_group_step user) (chat, db)).2.unread = db.unread ∧
       (ms.foldl (create_group_step user) (chat, db)).2.secretDefault =
         db.secretDefault) ∧
      ∃ new,
        (ms.foldl (create_group_step user) (chat, db)).2.messages =
          db.messages ++ new ∧
        new.length = ms.countP (memberValid db user) ∧
        new.all (fun m => m.is_system &&
          decide (m.system_message_type = some "user_added")) = true := by
  induction ms with
  | nil =>
    intro chat db
    exact ⟨⟨rfl, rfl, fun x hx => hx⟩, ⟨rfl, rfl, rfl, rfl⟩,
      ⟨[], by simp, by simp, by simp⟩⟩
  | cons s rest ih =>
    intro chat db
    rw [List.foldl_cons]
    cases hu : userByUsername db s with
    | none =>
      have hstep : create_group_step user (chat, db) s = (chat, db) := by
        simp [create_group_step, hu]
      rw [hstep]
      have hval : memberValid db user s = false := by
        simp [memberValid, hu]
      obtain ⟨ha, hb, new, h1, h2, h3⟩ := ih chat db
      exact ⟨ha, hb, new, h1, by simp [List.countP_cons, hval, h2], h3⟩
    | some member =>
      by_cases hm : member.id = user.id
      · have hstep : create_group_step user (chat, db) s = (chat, db) := by
          simp [create_group_step, hu, hm]
        rw [hstep]
        have hval : memberValid db user s = false := by
          simp [memberValid, hu, hm]
        obtain ⟨ha, hb, new, h1, h2, h3⟩ := ih chat db
        exact ⟨ha, hb, new, h1, by simp [List.countP_cons, hval, h2], h3⟩
      · have hstep : create_group_step user (chat, db) s =
            ({ chat with users := m2mAdd chat.users member.id },
             (createMessage db
               (user.username ++ " added " ++ member.username ++
                 " to the group")
               user.id chat.id true (some "user_added")
               (some [("actor", user.username),
                      ("target", member.username)])).2) := by
          simp [create_group_step, hu, hm]
        rw [hstep]
        have hval : memberValid db user s = true := by
          simp [memberValid, hu, hm]
        obtain ⟨⟨a1, a2, a3⟩, ⟨b1, b2, b3, b4⟩, new, h1, h2, h3⟩ :=
          ih { chat with users := m2mAdd chat.users member.id }
            (createMessage db
              (user.username ++ " added " ++ member.username ++
                " to the group")
              user.id chat.id true (some "user_added")
              (some [("actor", user.username),
                     ("target", member.username)])).2
        refine ⟨⟨a1, a2, ?_⟩, ⟨b1, b2, b3, b4⟩,
          ⟨(createMessage db
              (user.username ++ " added " ++ member.username ++
                " to the group")
              user.id chat.id true (some "user_added")
              (some [("actor", user.username),
                     ("target", member.username)])).1 :: new, ?_, ?_, ?_⟩⟩
        · intro x hx
          exact a3 x (mem_m2mAdd_of_mem member.id hx)
        · have h1b : (rest.foldl (create_group_step user)
              ({ chat with users := m2mAdd chat.users member.id },
               (createMessage db
                 (user.username ++ " added " ++ member.username ++
                   " to the group")
                 user.id chat.id true (some "user_added")
                 (some [("actor", user.username),
                        ("target", member.username)])).2)).2.messages =
              (db.messages ++ [(createMessage db
                (user.username ++ " added " ++ member.username ++
                  " to the group")
                user.id chat.id true (some "user_added")
                (some [("actor", user.username),
                       ("target", member.username)])).1]) ++ new := h1
          rw [h1b, List.append_assoc, List.singleton_append]
        · have h2b : new.length = rest.countP (memberValid db user) := h2
          simp [List.countP_cons, hval, h2b]
        · simp only [List.all_cons, h3, Bool.and_true]
          simp [createMessage]

/-- C6 (amended): `create_group(name, creator, members)` makes the creator
a member and the sole admin of the new chat row, appends one
"user_added" system message per occurrence of a member username that
resolves to an existing user other than the creator (so two for the
valid members B and C), silently skips usernames that resolve to no
user — and creates no unread marks at all, since the member loop never
calls `mark_as_not_read`. -/
theorem create_group_correct (db : DB) (user : User) (nm : String)
    (ms : List String) :
    (create_group db user nm ms).2.chats =
      db.chats ++ [(create_group_run db user nm ms).1] ∧
    (create_group_run db user nm ms).1.admins = [user.id] ∧
    user.id ∈ (create_group_run db user nm ms).1.users ∧
    (create_group db user nm ms).2.unread = db.unread ∧
    ∃ new, (create_group db user nm ms).2.messages = db.messages ++ new ∧
      new.length = ms.countP (memberValid db user) ∧
      new.all (fun m => m.is_system &&
        decide (m.system_message_type = some "user_added")) = true := by
  obtain ⟨⟨a1, a2, a3⟩, ⟨b1, b2, b3, b4⟩, new, h1, h2, h3⟩ :=
    create_group_run_spec user ms (create_group_chat0 db user nm)
      (create_group_db0 db)
  have hchats : (create_group db user nm ms).2.chats =
      (create_group_run db user nm ms).2.chats ++
        [(create_group_run db user nm ms).1] := rfl
  have b2b : (create_group_run db user nm ms).2.chats = db.chats := b2
  have a2b : (create_group_run db user nm ms).1.admins = [user.id] := a2
  have b3b : (create_group db user nm ms).2.unread = db.unread := b3
  have h1b : (create_group db user nm ms).2.messages =
      db.messages ++ new := h1
  have h2b : new.length = ms.countP (memberValid db user) := h2
  refine ⟨?_, a2b, ?_, b3b, new, h1b, h2b, h3⟩
  · rw [hchats, b2b]
  · exact a3 user.id (by simp [create_group_chat0])

/-- C6 counterexample: A creates group "Team" with valid initial members
B and C; the claimed state has B and C holding two unread marks each, but
the code produces the two "user_added" system messages and an unread
table that is still empty — `create_group` performs no unread fan-out. -/
theorem create_group_no_unread :
    (create_group dbABC userA "Team" ["B", "C"]).1.status = true ∧
    ((create_group dbABC userA "Team" ["B", "C"]).2.messages.filter
      (fun m => m.is_system)).length = 2 ∧
    (create_group dbABC userA "Team" ["B", "C"]).2.unread = [] := by decide

/-- C10: the `secret` of a chat row created without an explicit value is
the single process-wide default computed once at class-definition time,
so any two groups created by `create_group` in the same run report the
same secret. -/
theorem create_group_secret_shared (db : DB) (u1 u2 : User)
    (n1 n2 : String) (ms1 ms2 : List String) :
    (create_group db u1 n1 ms1).1.secret = db.secretDefault ∧
    (create_group (create_group db u1 n1 ms1).2 u2 n2 ms2).1.secret =
      db.secretDefault ∧
    (create_group db u1 n1 ms1).1.secret =
      (create_group (create_group db u1 n1 ms1).2 u2 n2 ms2).1.secret := by
  have key : ∀ (db2 : DB) (u : User) (nm : String) (ms : List String),
      (create_group db2 u nm ms).1.secret = db2.secretDefault ∧
      (create_group db2 u nm ms).2.secretDefault = db2.secretDefault := by
    intro db2 u nm ms
    obtain ⟨⟨a1, _, _⟩, ⟨_, _, _, b4⟩, _⟩ :=
      create_group_run_spec u ms (create_group_chat0 db2 u nm)
        (create_group_db0 db2)
    have ha : (create_group db2 u nm ms).1.secret =
        (create_group_chat0 db2 u nm).secret := a1
    have hb : (create_group db2 u nm ms).2.secretDefault =
        db2.secretDefault := b4
    exact ⟨ha, hb⟩
  obtain ⟨k1, k2⟩ := key db u1 n1 ms1
  obtain ⟨k3, _⟩ := key (create_group db u1 n1 ms1).2 u2 n2 ms2
  refine ⟨k1, ?_, ?_⟩
  · rw [k3, k2]
  · rw [k1, k3, k2]

/-- The shared success tail preserves the table-wide admin-subset
invariant whenever the modified chat row respects it: only the modified
row and its `last_time` copy are written to the chat table. -/
lemma all_admins_subset_mutate_chat_tail {db : DB} {chat1 : Chat}
    (txt : String) (uid cid : Nat) (t : Option String)
    (p : Option (List (String × String)))
    (h : db.chats.all admins_subset = true)
    (hc : admins_subset chat1 = true) :
    (mutate_chat_tail db chat1 txt uid cid t p).chats.all admins_subset
      = true := by
  have hA : (updateChat db chat1).chats.all admins_subset = true :=
    all_admins_subset_updateChat h hc
  have hB : (mark_as_not_read
      (createMessage (updateChat db chat1) txt uid cid true t p).2 chat1
      (createMessage (updateChat db chat1) txt uid cid true t p).1.id).chats.all
        admins_subset = true := hA
  have hc2 : admins_subset { chat1 with
      last_time := (createMessage (updateChat db chat1) txt uid cid
        true t p).1.send_time } = true := hc
  exact all_admins_subset_updateChat hB hc2

/-- C1 counterexample: in `dbAB` (group 1: members {1,2}, sole admin 1)
`add_admin` grants admin rights to non-member C, and in `dbAB2` (members
{1,2}, admins {1,2}) `remove_member` removes admin B's membership while
`leave_group` lets admin A leave — in each resulting state some chat has
an admin who is not a member, although all chats satisfied the invariant
beforehand. -/
theorem admins_subset_broken :
    dbAB.chats.all admins_subset = true ∧
    dbAB2.chats.all admins_subset = true ∧
    (add_admin dbAB userA 1 "C").1 = true ∧
    (add_admin dbAB userA 1 "C").2.chats.all admins_subset = false ∧
    (remove_member dbAB2 userA 1 "B").1 = true ∧
    (remove_member dbAB2 userA 1 "B").2.chats.all admins_subset = false ∧
    (leave_group dbAB2 userA 1 "bye").1 = some true ∧
    (leave_group dbAB2 userA 1 "bye").2.chats.all admins_subset = false := by
  decide

/-- C1 (amended): the admin-subset invariant is established by
`create_group` (the creator is both the sole admin and a member) and
preserved by `add_member` and `remove_admin`; `add_admin` preserves it
exactly when the promoted user is already a member (the view itself never
checks this); `remove_member` and `leave_group` are not in the list
because they drop only the membership row and can leave a removed user in
the admin set. -/
theorem admins_subset_preserved (db : DB) (user : User) (nm : String)
    (ms : List String) (fid : Nat) (uname : String)
    (hinv : db.chats.all admins_subset = true) :
    (create_group db user nm ms).2.chats.all admins_subset = true ∧
    (add_member db user fid uname).2.chats.all admins_subset = true ∧
    (remove_admin db user fid uname).2.chats.all admins_subset = true ∧
    (∀ chat target, chatByPk db fid = some chat →
      userByUsername db uname = some target → target.id ∈ chat.users →
      (add_admin db user fid uname).2.chats.all admins_subset = true) := by
  refine ⟨?_, ?_, ?_, ?_⟩
  · obtain ⟨⟨_, a2, a3⟩, ⟨_, b2, _, _⟩, _⟩ :=
      create_group_run_spec user ms (create_group_chat0 db user nm)
        (create_group_db0 db)
    have hchats : (create_group db user nm ms).2.chats =
        (create_group_run db user nm ms).2.chats ++
          [(create_group_run db user nm ms).1] := rfl
    have b2b : (create_group_run db user nm ms).2.chats = db.chats := b2
    have a2b : (create_group_run db user nm ms).1.admins = [user.id] := a2
    rw [hchats, b2b, List.all_append, hinv, Bool.true_and, List.all_cons,
      List.all_nil, Bool.and_true]
    apply admins_subset_iff.mpr
    intro a ha
    rw [a2b, List.mem_singleton] at ha
    rw [ha]
    exact a3 user.id (by simp [create_group_chat0])
  · cases hc : chatByPk db fid with
    | none => simpa [add_member, hc] using hinv
    | some chat =>
      cases hu : userByUsername db uname with
      | none => simpa [add_member, hc, hu] using hinv
      | some target =>
        have hchat : admins_subset chat = true := by
          rw [List.all_eq_true] at hinv
          exact hinv chat (List.mem_of_find?_eq_some hc)
        by_cases hg : (chat.is_group = true ∧ user.id ∈ chat.admins)
        · have hchat1 : admins_subset
              { chat with users := m2mAdd chat.users target.id } = true := by
            apply admins_subset_iff.mpr
            intro a ha
            exact mem_m2mAdd_of_mem target.id (admins_subset_iff.mp hchat a ha)
          have hres : (add_member db user fid uname).2 = mutate_chat_tail db
              { chat with users := m2mAdd chat.users target.id }
              (user.username ++ " added " ++ target.username ++ " to the group")
              user.id chat.id (some "user_added")
              (some [("actor", user.username), ("target", target.username)]) := by
            simp [add_member, hc, hu, hg]
          rw [hres]
          exact all_admins_subset_mutate_chat_tail _ _ _ _ _ hinv hchat1
        · simpa [add_member, hc, hu, hg] using hinv
  · cases hc : chatByPk db fid with
    | none => simpa [remove_admin, hc] using hinv
    | some chat =>
      cases hu : userByUsername db uname with
      | none => simpa [remove_admin, hc, hu] using hinv
      | some target =>
        have hchat : admins_subset chat = true := by
          rw [List.all_eq_true] at hinv
          exact hinv chat (List.mem_of_find?_eq_some hc)
        by_cases hg : (chat.is_group = true ∧ chat.admins.head? = some user.id
            ∧ target.id ∈ chat.admins ∧ ¬ target.id = user.id)
        · have hchat1 : admins_subset
              { chat with admins := m2mRemove chat.admins target.id } = true := by
            apply admins_subset_iff.mpr
            intro a ha
            have ha2 : a ∈ chat.admins := List.mem_of_mem_filter ha
            exact admins_subset_iff.mp hchat a ha2
          have hres : (remove_admin db user fid uname).2 = mutate_chat_tail db
              { chat with admins := m2mRemove chat.admins target.id }
              (user.username ++ " removed admin rights from " ++ target.username)
              user.id chat.id (some "admin_removed")
              (some [("actor", user.username), ("target", target.username)]) := by
            simp [remove_admin, hc, hu, hg]
          rw [hres]
          exact all_admins_subset_mutate_chat_tail _ _ _ _ _ hinv hchat1
        · simpa [remove_admin, hc, hu, hg] using hinv
  · intro chat target hc hu ht
    have hchat : admins_subset chat = true := by
      rw [List.all_eq_true] at hinv
      exact hinv chat (List.mem_of_find?_eq_some hc)
    by_cases hg : (chat.is_group = true ∧ chat.admins.head? = some user.id)
    · have hchat1 : admins_subset
          { chat with admins := m2mAdd chat.admins target.id } = true := by
        apply admins_subset_iff.mpr
        intro a ha
        rcases mem_m2mAdd_iff.mp ha with haold | rfl
        · exact admins_subset_iff.mp hchat a haold
        · exact ht
      have hres : (add_admin db user fid uname).2 = mutate_chat_tail db
          { chat with admins := m2mAdd chat.admins target.id }
          (user.username ++ " made " ++ target.username ++ " an admin")
          user.id chat.id (some "admin_added")
          (some [("actor", user.username), ("target", target.username)]) := by
        simp [add_admin, hc, hu, hg]
      rw [hres]
      exact all_admins_subset_mutate_chat_tail _ _ _ _ _ hinv hchat1
    · simpa [add_admin, hc, hu, hg] using hinv

/-- C1 witness: concrete runs of the preserved operations on `dbAB`, with
every hypothesis discharged by evaluation. -/
theorem admins_subset_preserved_witness :
    dbAB.chats.all admins_subset = true ∧
    (create_group dbAB userA "g2" ["B"]).2.chats.all admins_subset = true ∧
    (add_member dbAB userA 1 "C").2.chats.all admins_subset = true ∧
    (remove_admin dbAB userA 1 "B").2.chats.all admins_subset = true ∧
    (add_admin dbAB userA 1 "B").2.chats.all admins_subset = true :=
  ⟨by decide,
   (admins_subset_preserved dbAB userA "g2" ["B"] 1 "C" (by decide)).1,
   (admins_subset_preserved dbAB userA "g2" ["B"] 1 "C" (by decide)).2.1,
   (admins_subset_preserved dbAB userA "g2" ["B"] 1 "B" (by decide)).2.2.1,
   (admins_subset_preserved dbAB userA "g2" ["B"] 1 "B" (by decide)).2.2.2
     chatAB userB (by decide) (by decide) (by decide)⟩

/-- C3: `add_admin` succeeds only when the actor is the head of the
insertion-ordered admin rows of a group chat (`admins.all().first()`),
and `remove_admin` additionally requires the target to be a current admin
distinct from the actor; every failing call of either view returns
`status:false` and leaves the database — in particular every admin set —
unchanged. -/
theorem admin_seniority_gates (db : DB) (user : User) (fid : Nat)
    (uname : String) :
    ((add_admin db user fid uname).1 = true →
      ∃ chat, chatByPk db fid = some chat ∧ chat.is_group = true ∧
        chat.admins.head? = some user.id) ∧
    ((add_admin db user fid uname).1 = false →
      (add_admin db user fid uname).2 = db) ∧
    ((remove_admin db user fid uname).1 = true →
      ∃ chat target, chatByPk db fid = some chat ∧
        userByUsername db uname = some target ∧ chat.is_group = true ∧
        chat.admins.head? = some user.id ∧ target.id ∈ chat.admins ∧
        ¬ target.id = user.id) ∧
    ((remove_admin db user fid uname).1 = false →
      (remove_admin db user fid uname).2 = db) := by
  have hA : ((add_admin db user fid uname).1 = true →
      ∃ chat, chatByPk db fid = some chat ∧ chat.is_group = true ∧
        chat.admins.head? = some user.id) ∧
      ((add_admin db user fid uname).1 = false →
        (add_admin db user fid uname).2 = db) := by
    unfold add_admin
    cases hc : chatByPk db fid with
    | none => exact ⟨fun h => by simp at h, fun _ => rfl⟩
    | some chat =>
      cases hu : userByUsername db uname with
      | none => exact ⟨fun h => by simp at h, fun _ => rfl⟩
      | some target =>
        dsimp only
        by_cases hg : (chat.is_group = true ∧ chat.admins.head? = some user.id)
        · rw [if_pos hg]
          exact ⟨fun _ => ⟨chat, rfl, hg.1, hg.2⟩, fun h => by simp at h⟩
        · rw [if_neg hg]
          exact ⟨fun h => by simp at h, fun _ => rfl⟩
  have hB : ((remove_admin db user fid uname).1 = true →
      ∃ chat target, chatByPk db fid = some chat ∧
        userByUsername db uname = some target ∧ chat.is_group = true ∧
        chat.admins.head? = some user.id ∧ target.id ∈ chat.admins ∧
        ¬ target.id = user.id) ∧
      ((remove_admin db user fid uname).1 = false →
        (remove_admin db user fid uname).2 = db) := by
    unfold remove_admin
    cases hc : chatByPk db fid with
    | none => exact ⟨fun h => by simp at h, fun _ => rfl⟩
    | some chat =>
      cases hu : userByUsername db uname with
      | none => exact ⟨fun h => by simp at h, fun _ => rfl⟩
      | some target =>
        dsimp only
        by_cases hg : (chat.is_group = true ∧ chat.admins.head? = some user.id
            ∧ target.id ∈ chat.admins ∧ ¬ target.id = user.id)
        · rw [if_pos hg]
          exact ⟨fun _ => ⟨chat, target, rfl, rfl, hg.1, hg.2.1, hg.2.2.1,
            hg.2.2.2⟩, fun h => by simp at h⟩
        · rw [if_neg hg]
          exact ⟨fun h => by simp at h, fun _ => rfl⟩
  exact ⟨hA.1, hA.2, hB.1, hB.2⟩

/-- C3 witness: in `dbAB` the sole (hence first) admin is A; B's attempt
to promote C is rejected with the store unchanged, and A's attempt to
demote themself is rejected with the store unchanged. -/
theorem admin_seniority_gates_witness :
    (add_admin dbAB userB 1 "C").1 = false ∧
    (add_admin dbAB userB 1 "C").2 = dbAB ∧
    (remove_admin dbAB userA 1 "A").1 = false ∧
    (remove_admin dbAB userA 1 "A").2 = dbAB :=
  ⟨by decide,
   (admin_seniority_gates dbAB userB 1 "C").2.1 (by decide),
   by decide,
   (admin_seniority_gates dbAB userA 1 "A").2.2.2 (by decide)⟩

/-- C4: evaluation at the failing input.  In `dbSolo` the group's only
member is its only admin A.  A's `leave_group` empties the member list,
and the teardown call `remove_group(chat)` resolves to the identically
named view (the helper of line 211 is shadowed), which raises — result
`none` (HTTP 500) — leaving the emptied conversation in the store, where
a later `get_group` finds it (denied, not NotFound).  A's `remove_member`
of themself also empties the member list yet succeeds with a
"user_removed" system message appended and no teardown either. -/
theorem last_member_removal_no_teardown :
    (leave_group dbSolo userA 1 "bye").1 = none ∧
    chatByPk (leave_group dbSolo userA 1 "bye").2 1 ≠ none ∧
    (get_group (leave_group dbSolo userA 1 "bye").2 userA 1).1 =
      GetGroupStatus.denied ∧
    (remove_member dbSolo userA 1 "A").1 = true ∧
    chatByPk (remove_member dbSolo userA 1 "A").2 1 ≠ none ∧
    ((remove_member dbSolo userA 1 "A").2.messages.filter
      (fun m => m.is_system)).length = 1 := by decide

/-- C9: `save_settings` performs no membership or admin check: for every
user — member or not — and every existing chat id the result is
`status:true` and the supplied name and description are applied (with
`last_time` bumped); only an unknown chat id yields `status:false`, in
which case nothing is written. -/
theorem save_settings_unauthorized (db : DB) (user : User) (idArg : Nat)
    (nameArg descArg : Option String) (txt : String) :
    (save_settings db user idArg nameArg descArg txt).1 =
      (chatByPk db idArg).isSome ∧
    chatByPk (save_settings db user idArg nameArg descArg txt).2 idArg =
      (chatByPk db idArg).map (fun c =>
        { c with name := nameArg.getD c.name
                 description := descArg.getD c.description
                 last_time := db.now }) := by
  cases hc : chatByPk db idArg with
  | none =>
    constructor
    · simp [save_settings, hc]
    · simp [save_settings, hc]
  | some c =>
    have hcid : c.id = idArg := by
      have := List.find?_some hc
      simpa using this
    constructor
    · simp [save_settings, hc]
    · have h2 : (save_settings db user idArg nameArg descArg txt).2 =
          updateChat
            (mark_as_not_read (createMessage db txt user.id c.id true none none).2
              { c with name := nameArg.getD c.name
                       description := descArg.getD c.description }
              (createMessage db txt user.id c.id true none none).1.id)
            { c with name := nameArg.getD c.name
                     description := descArg.getD c.description
                     last_time :=
                       (createMessage db txt user.id c.id true none none).1.send_time } := by
        simp [save_settings, hc]
      rw [h2]
      have h3 : chatByPk (updateChat
          (mark_as_not_read (createMessage db txt user.id c.id true none none).2
            { c with name := nameArg.getD c.name
                     description := descArg.getD c.description }
            (createMessage db txt user.id c.id true none none).1.id)
          { c with name := nameArg.getD c.name
                   description := descArg.getD c.description
                   last_time :=
                     (createMessage db txt user.id c.id true none none).1.send_time })
          idArg =
          (chatByPk db idArg).map (fun _ =>
            ({ c with name := nameArg.getD c.name
                      description := descArg.getD c.description
                      last_time :=
                        (createMessage db txt user.id c.id true none none).1.send_time } : Chat)) :=
        find?_map_replace db.chats _ idArg hcid
      rw [h3, hc]
      rfl

/-- C5 witness: concrete two-page run over `dbPage` (chat 1 holds
messages 1-4): page X=4, L=2 and then the follow-up page at the previous
minimum, with every hypothesis discharged by evaluation. -/
theorem messages_pagination_correct_witness :
    (0 < 2 ∧ 0 < 4 ∧ (dbPage.messages.map Message.id).Nodup ∧
      (∀ m ∈ dbPage.messages, 0 < m.id)) ∧
    (messages_to_arr_from dbPage 1 (some 4) 2).length ≤ 2 :=
  ⟨⟨by decide, by decide, by decide, by decide⟩,
   (messages_pagination_correct dbPage 1 4 2 (by decide) (by decide)
     (by decide) (by decide)).2.2.1⟩


end Meowsenger
